import Mathlib

/-!
Shallow embedding of the HTTP client's resource-transfer engine
(`src/client.rs`, `src/error.rs` of the `http-client` crate).

Machine integers (`usize`) are modelled as `Nat` together with the bound
`USIZE_BOUND = 2 ^ 64`; arithmetic that would overflow or underflow a
`usize` in a checked (debug) build is modelled as an explicit `panicked`
outcome, matching Rust's checked-arithmetic semantics.  I/O is modelled by
an explicit environment (`server`) that answers each outbound request
either with a transport failure or with a parsed response, mirroring the
boundary of `ClientRequest::send_request`.
-/

namespace HttpClient

/-! ### String utilities

Rust's `str::to_ascii_lowercase`-style case-insensitive comparison,
`str::contains`, `str::replace("bytes", "")`, `str::trim`,
`str::split(['-', '/'])` and `usize::from_str`, modelled on `List Char`.
-/

/-- ASCII lowercase of one character (`u8::to_ascii_lowercase`). -/
def asciiLower (c : Char) : Char :=
  if 'A' ≤ c ∧ c ≤ 'Z' then Char.ofNat (c.toNat + 32) else c

/-- Case-insensitive ASCII string equality (`str::eq_ignore_ascii_case`). -/
def eqIgnoreAsciiCase (a b : String) : Bool :=
  a.data.map asciiLower == b.data.map asciiLower

/-- `needle` occurs at the start of `hay` (`str::starts_with`). -/
def listIsPrefixOf : List Char → List Char → Bool
  | [], _ => true
  | _ :: _, [] => false
  | a :: as, b :: bs => a == b && listIsPrefixOf as bs

/-- `needle` occurs somewhere in `hay` (`str::contains`, case-sensitive). -/
def containsSub (hay needle : List Char) : Bool :=
  match hay with
  | [] => listIsPrefixOf needle []
  | _ :: rest => listIsPrefixOf needle hay || containsSub rest needle

/-- Remove every occurrence of the literal `"bytes"`
(`String::replace("bytes", "")`, non-overlapping, left to right). -/
def stripBytes : List Char → List Char
  | 'b' :: 'y' :: 't' :: 'e' :: 's' :: rest => stripBytes rest
  | c :: rest => c :: stripBytes rest
  | [] => []

/-- Remove leading and trailing whitespace (`str::trim`). -/
def trimChars (s : List Char) : List Char :=
  ((s.dropWhile Char.isWhitespace).reverse.dropWhile Char.isWhitespace).reverse

/-- Split on the separators `'-'` and `'/'`, keeping empty pieces
(`str::split(['-', '/'])`). -/
def splitSeps : List Char → List (List Char)
  | [] => [[]]
  | c :: rest =>
    if c = '-' ∨ c = '/' then [] :: splitSeps rest
    else
      match splitSeps rest with
      | [] => [[c]]
      | piece :: pieces => (c :: piece) :: pieces

/-- Value of an all-digit string, `none` on any non-digit. -/
def digitsVal : List Char → Option Nat
  | [] => some 0
  | c :: rest =>
    if c.isDigit then
      (digitsVal rest).map (fun v => (c.toNat - '0'.toNat) * 10 ^ rest.length + v)
    else none

/-- The `usize` bound of the 64-bit targets the crate is built for. -/
def USIZE_BOUND : Nat := 2 ^ 64

/-- `usize::from_str` (`value.parse::<usize>()`): optional leading `'+'`,
then one or more ASCII digits, no surrounding whitespace, and the value
must fit in a `usize`. -/
def parseUsize (s : List Char) : Option Nat :=
  let digits := match s with
    | '+' :: rest => rest
    | other => other
  match digits with
  | [] => none
  | _ :: _ =>
    match digitsVal digits with
    | some n => if n < USIZE_BOUND then some n else none
    | none => none

/-! ### Data model (`src/error.rs`, `src/client.rs`, wire-protocol boundary) -/

/-- `HttpError` from `src/error.rs`.  Note: the enum has exactly these four
variants; in particular there is no `IoError` variant. -/
inductive HttpError where
  | BadResponse (status : Nat) (msg : String)
  | InvalidUrl (msg : String)
  | ParseError (msg : String)
  | ConnectionError (msg : String)
deriving DecidableEq, Repr

/-- `impl From<std::io::Error> for HttpError` composed with
`impl From<HttpParseError> for HttpError`: an I/O error on an established
channel is wrapped into the wire-protocol library's `HttpParseError` and
then converted to `HttpError::ParseError` carrying the error's display
string (`value.to_string()` passes the message through). -/
def from_io (msg : String) : HttpError :=
  HttpError.ParseError msg

/-- `http_parse::HttpMethod` (the variants the client constructors use). -/
inductive HttpMethod where
  | Post | Get | Head | Put | Connect | Trace | Patch | Options | Delete
deriving DecidableEq, Repr

/-- `http_parse::HttpUrl` at the boundary the core relies on: scheme, host,
port and path, produced by the external URL parser. -/
structure HttpUrl where
  scheme : String
  host : String
  port : Nat
  path : String
deriving DecidableEq, Repr

/-- `http_parse::HttpRequest` at the boundary the core relies on: method,
path, ordered header collection and body bytes. -/
structure HttpRequest where
  method : HttpMethod
  path : String
  headers : List (String × String)
  data : List Nat
deriving DecidableEq, Repr

/-- `http_parse::HttpResponse` at the boundary the core relies on:
status code, status message, header collection and body bytes. -/
structure HttpResponse where
  status_code : Nat
  status_msg : String
  headers : List (String × String)
  data : List Nat
deriving DecidableEq, Repr

/-- Case-insensitive header lookup (first match), the contract the
wire-protocol library's `header(name)` exposes. -/
def headerLookup (headers : List (String × String)) (name : String) : Option String :=
  match headers with
  | [] => none
  | (k, v) :: rest =>
    if eqIgnoreAsciiCase k name then some v else headerLookup rest name

/-- `put_header`: overwrite the value of an existing header with the same
(case-insensitive) name, else append. -/
def putHeader (headers : List (String × String)) (name value : String) :
    List (String × String) :=
  match headers with
  | [] => [(name, value)]
  | (k, v) :: rest =>
    if eqIgnoreAsciiCase k name then (k, value) :: rest
    else (k, v) :: putHeader rest name value

/-- `FileSize` from `src/client.rs`. -/
inductive FileSize where
  | Sized (size : Nat)
  | Chunked
deriving DecidableEq, Repr

/-- Decidable equality of probe outcomes (used to evaluate the
classification on concrete responses). -/
instance : DecidableEq (Except HttpError FileSize) := fun a b =>
  match a, b with
  | .ok x, .ok y =>
    if h : x = y then isTrue (by rw [h]) else isFalse (by intro hc; cases hc; exact h rfl)
  | .error x, .error y =>
    if h : x = y then isTrue (by rw [h]) else isFalse (by intro hc; cases hc; exact h rfl)
  | .ok _, .error _ => isFalse (by intro hc; cases hc)
  | .error _, .ok _ => isFalse (by intro hc; cases hc)

/-- Header-name constants of the wire-protocol library used by the core. -/
def H_RANGE : String := "Range"

/-- `http_parse::H_CONTENT_RANGE`. -/
def H_CONTENT_RANGE : String := "Content-Range"

/-- `http_parse::H_CONTENT_LENGTH`. -/
def H_CONTENT_LENGTH : String := "Content-Length"

/-- `http_parse::H_TRANSFER_ENCODING`. -/
def H_TRANSFER_ENCODING : String := "Transfer-Encoding"

/-- `http_parse::H_USER_AGENT`. -/
def H_USER_AGENT : String := "User-Agent"

/-- `http_parse::H_HOST`. -/
def H_HOST : String := "Host"

/-- `LIB_USER_AGENT` from `src/client.rs`. -/
def LIB_USER_AGENT : String := "HTTP Lib / 0.1.0 WD Client"

/-- `MAX_BLOCK_SIZE` from `src/client.rs`. -/
def MAX_BLOCK_SIZE : Nat := 1000000

/-! ### The segmented-fetch loop of `ClientRequest::download_sized` -/

/-- The loop state of `download_sized` (`start_byte`, `end_byte`,
`total_read`); the spec calls the first two plus the total the
`RangeWindow`. -/
structure RangeWindow where
  start_byte : Nat
  end_byte : Nat
  total_read : Nat
deriving DecidableEq, Repr

/-- The `Range` header value written on each iteration:
`format!("bytes={start_byte}-{end_byte}/{size}")`. -/
def range_value (size : Nat) (st : RangeWindow) : String :=
  "bytes=" ++ Nat.repr st.start_byte ++ "-" ++ Nat.repr st.end_byte ++
    "/" ++ Nat.repr size

/-- Parse a `Content-Range` header value the way `download_sized` does:
`value.replace("bytes", "").trim().split(['-', '/'])` and keep the pieces
that parse as `usize` (`flat_map(|v| v.parse::<usize>())`). -/
def parseContentRange (v : String) : List Nat :=
  (splitSeps (trimChars (stripBytes v.data))).filterMap parseUsize

/-- The token list `download_sized` extracts from a response's
`Content-Range` header (empty when the header is absent). -/
def content_range_tokens (r : HttpResponse) : List Nat :=
  match headerLookup r.headers H_CONTENT_RANGE with
  | some v => parseContentRange v
  | none => []

/-- Display of the wire-protocol library's `Header` value as interpolated
into the `"Unsupported value for header"` message (name, colon, value). -/
def displayHeader (name value : String) : String :=
  name ++ ": " ++ value

/-- Outcome of one loop iteration's body (after a response was parsed). -/
inductive StepResult where
  | next (st : RangeWindow)
  | err (e : HttpError)
  | panicked
deriving DecidableEq, Repr

/-- The advance statements of the loop
(`total_read += tokens[1] - tokens[0] + 1; start_byte = tokens[1] + 1;
end_byte = min(size, end_byte + MAX_BLOCK_SIZE);`) with `t0 = tokens[0]`,
`t1 = tokens[1]`, under checked `usize` arithmetic: the subtraction
`tokens[1] - tokens[0]` and the subsequent additions abort (`panicked`)
when the result would leave `0 ≤ n < USIZE_BOUND`. -/
def advance_window (size : Nat) (st : RangeWindow) (t0 t1 : Nat) : StepResult :=
  if t1 < t0 then .panicked
  else if USIZE_BOUND ≤ t1 - t0 + 1 then .panicked
  else if USIZE_BOUND ≤ st.total_read + (t1 - t0 + 1) then .panicked
  else if USIZE_BOUND ≤ t1 + 1 then .panicked
  else if USIZE_BOUND ≤ st.end_byte + MAX_BLOCK_SIZE then .panicked
  else .next ⟨t1 + 1, min size (st.end_byte + MAX_BLOCK_SIZE),
    st.total_read + (t1 - t0 + 1)⟩

/-- One iteration of the `download_sized` loop after `send_request`
returned response `r`: the status check, the `Content-Range` handling and
the advance of the loop state. -/
def dlStep (size : Nat) (st : RangeWindow) (r : HttpResponse) : StepResult :=
  if r.status_code ≠ 206 ∧ r.status_code ≠ 200 then
    .err (HttpError.BadResponse r.status_code r.status_msg)
  else
    match headerLookup r.headers H_CONTENT_RANGE with
    | some v =>
      if (parseContentRange v).length < 3 then
        .err (HttpError.BadResponse r.status_code
          ("Unsupported value for header" ++ "`" ++
            displayHeader H_CONTENT_RANGE v ++ "`"))
      else
        advance_window size st ((parseContentRange v).getD 0 0)
          ((parseContentRange v).getD 1 0)
    | none =>
      .err (HttpError.BadResponse r.status_code
        ("Missing expected header: " ++ "`" ++ H_CONTENT_RANGE ++ "`"))

/-- Outcome of `send_request` as seen by the loop: either a transport
failure already converted to `HttpError` (the `?` operator), or a parsed
response. -/
inductive SendOutcome where
  | fail (e : HttpError)
  | resp (r : HttpResponse)

/-- The request actually sent on an iteration with loop state `st`:
`self.inner.put_header(H_RANGE, format!("bytes={start_byte}-{end_byte}/{size}"))`. -/
def sent_request (size : Nat) (st : RangeWindow) (req : HttpRequest) : HttpRequest :=
  { req with headers := putHeader req.headers H_RANGE (range_value size st) }

/-- Result of running the segmented-fetch loop.  `requests` counts the
sub-requests issued; `trace` lists, for each sub-request, the loop state
at the moment it was sent together with the request actually sent. -/
inductive RunResult where
  | ok (st : RangeWindow) (requests : Nat) (trace : List (RangeWindow × HttpRequest))
  | err (e : HttpError) (requests : Nat) (trace : List (RangeWindow × HttpRequest))
  | panicked (requests : Nat) (trace : List (RangeWindow × HttpRequest))
  | outOfFuel (trace : List (RangeWindow × HttpRequest))
deriving DecidableEq, Repr

/-- The trace carried by a run result. -/
def result_trace : RunResult → List (RangeWindow × HttpRequest)
  | .ok _ _ t => t
  | .err _ _ t => t
  | .panicked _ t => t
  | .outOfFuel t => t

/-- The number of sub-requests a completed run issued (`none` when the
fuel ran out, which the termination theorem rules out). -/
def result_requests : RunResult → Option Nat
  | .ok _ n _ => some n
  | .err _ n _ => some n
  | .panicked n _ => some n
  | .outOfFuel _ => none

/-- The final `total_read` of a successfully completed run. -/
def result_total_read : RunResult → Option Nat
  | .ok st _ _ => some st.total_read
  | _ => none

/-- The `while total_read < size` loop of `download_sized`, written with
explicit fuel.  Each iteration overwrites the request's `Range` header
(`put_header`) with the current window, sends the request to the
environment `server` (indexed by how many sub-requests were already
issued), and either propagates a transport failure, advances via
`dlStep`, or stops with the step's error or panic. -/
def runLoopAux (size : Nat) (server : Nat → HttpRequest → SendOutcome) :
    Nat → Nat → HttpRequest → RangeWindow → List (RangeWindow × HttpRequest) → RunResult
  | 0, i, _req, st, trace =>
    if st.total_read < size then .outOfFuel trace else .ok st i trace
  | fuel + 1, i, req, st, trace =>
    if st.total_read < size then
      match server i (sent_request size st req) with
      | .fail e => .err e (i + 1) (trace ++ [(st, sent_request size st req)])
      | .resp r =>
        match dlStep size st r with
        | .next st' =>
          runLoopAux size server fuel (i + 1) (sent_request size st req) st'
            (trace ++ [(st, sent_request size st req)])
        | .err e => .err e (i + 1) (trace ++ [(st, sent_request size st req)])
        | .panicked => .panicked (i + 1) (trace ++ [(st, sent_request size st req)])
    else .ok st i trace

/-- `ClientRequest::download_sized`: for `size <= MAX_BLOCK_SIZE` a single
plain request (no `Range` header, no status or header validation) whose
body goes to the sink; otherwise the segmented loop starting from
`start_byte = 0`, `end_byte = size`, `total_read = 0`.  The loop's fuel is
`size`, which the termination theorem shows is never exhausted.  (Sink
writes are modelled as infallible, as for the in-memory cursor used by
`download`.) -/
def download_sized (size : Nat) (inner : HttpRequest)
    (server : Nat → HttpRequest → SendOutcome) : RunResult :=
  if size ≤ MAX_BLOCK_SIZE then
    match server 0 inner with
    | .fail e => .err e 1 []
    | .resp _ => .ok ⟨0, size, 0⟩ 1 []
  else runLoopAux size server size 0 inner ⟨0, size, 0⟩ []

/-! ### Size probing (`ClientRequest::request_size`) -/

/-- The classification `request_size` performs on the probe response:
non-200 status fails; a present `Content-Length` is parsed as `usize`
(`header.value::<usize>()?`, parse failure becoming `ParseError` with the
offending value); otherwise a `Transfer-Encoding` value containing the
literal `"chunk"` (case-sensitive `str::contains`) yields `Chunked`; else
`BadResponse`. -/
def request_size_classify (r : HttpResponse) : Except HttpError FileSize :=
  if r.status_code ≠ 200 then
    .error (HttpError.BadResponse r.status_code r.status_msg)
  else
    match headerLookup r.headers H_CONTENT_LENGTH with
    | some v =>
      match parseUsize v.data with
      | some n => .ok (FileSize.Sized n)
      | none => .error (HttpError.ParseError v)
    | none =>
      match headerLookup r.headers H_TRANSFER_ENCODING with
      | some v =>
        if containsSub v.data "chunk".data then .ok FileSize.Chunked
        else .error (HttpError.BadResponse r.status_code
          (r.status_msg ++ ": Cannot determine resource size from headers."))
      | none =>
        .error (HttpError.BadResponse r.status_code
          (r.status_msg ++ ": Cannot determine resource size from headers."))

/-! ### Client constructors (`Client::patch`, `Client::options`, …) -/

/-- `ClientRequest::new`: store the URL-derived data and build the inner
request with the given method, the URL's path, and the `User-Agent` and
`Host` headers; `secure` is whether the scheme is `https`
(case-insensitive). -/
structure ClientRequest where
  url : HttpUrl
  inner : HttpRequest
  secure : Bool
deriving DecidableEq, Repr

/-- `ClientRequest::new(url, method)`. -/
def ClientRequest.new (url : HttpUrl) (method : HttpMethod) : ClientRequest :=
  { url := url
    inner :=
      { method := method
        path := url.path
        headers := [(H_USER_AGENT, LIB_USER_AGENT), (H_HOST, url.host)]
        data := [] }
    secure := eqIgnoreAsciiCase url.scheme "https" }

/-- `Client::patch` after the external URL parser succeeded: the source
constructs the request with `HttpMethod::Trace`. -/
def Client.patch (url : HttpUrl) : ClientRequest :=
  ClientRequest.new url HttpMethod.Trace

/-- `Client::options` after the external URL parser succeeded: the source
constructs the request with `HttpMethod::Trace`. -/
def Client.options (url : HttpUrl) : ClientRequest :=
  ClientRequest.new url HttpMethod.Trace

/-- `Client::trace` (for comparison): also `HttpMethod::Trace`. -/
def Client.trace (url : HttpUrl) : ClientRequest :=
  ClientRequest.new url HttpMethod.Trace

/-- A response the segmented-fetch loop accepts and advances on: status
206 or 200, `Content-Range` present and parsing to at least three
integers whose first two are ordered. -/
def accepted_response (r : HttpResponse) : Bool :=
  (r.status_code == 206 || r.status_code == 200) &&
    match content_range_tokens r with
    | t0 :: t1 :: _ :: _ => decide (t0 ≤ t1)
    | _ => false

/-- An environment whose every answer is an accepted response. -/
def server_accepts (server : Nat → HttpRequest → SendOutcome) : Prop :=
  ∀ i q, ∃ r, server i q = SendOutcome.resp r ∧ accepted_response r = true

/-- The window invariant the spec states for the loop: `end_byte` equals
the probed total and `start_byte <= end_byte`. -/
def loop_invariant (size : Nat) (st : RangeWindow) : Prop :=
  st.end_byte = size ∧ st.start_byte ≤ st.end_byte

/-! ### Concrete fixtures (environments used by witnesses and
counterexamples) -/

/-- A request template as `ClientRequest::new` builds it for a GET. -/
def sampleRequest : HttpRequest :=
  { method := HttpMethod.Get
    path := "/file"
    headers := [(H_USER_AGENT, LIB_USER_AGENT), (H_HOST, "example.com")]
    data := [] }

/-- A `206 Partial Content` response announcing the span `a`-`b` of a
`t`-byte resource in its `Content-Range` header. -/
def rangeResponse (a b t : Nat) : HttpResponse :=
  { status_code := 206
    status_msg := "Partial Content"
    headers := [(H_CONTENT_RANGE,
      "bytes " ++ Nat.repr a ++ "-" ++ Nat.repr b ++ "/" ++ Nat.repr t)]
    data := [] }

/-- The environment of the spec's scenario: a compliant range-serving
server for a `T`-byte resource that exposes at most `MAX_BLOCK_SIZE`
bytes per request, answering the `i`-th sub-request with the `i`-th
block. -/
def block_server (T : Nat) (i : Nat) (_req : HttpRequest) : SendOutcome :=
  SendOutcome.resp
    (rangeResponse (i * MAX_BLOCK_SIZE) (min ((i + 1) * MAX_BLOCK_SIZE - 1) (T - 1)) T)

/-- An adversarial-but-accepted environment: the first response reports a
span entirely outside the requested window (`bytes 2000000-2000000/1000001`),
every later response reports the whole resource. -/
def overshoot_server (i : Nat) (_req : HttpRequest) : SendOutcome :=
  if i = 0 then SendOutcome.resp (rangeResponse 2000000 2000000 1000001)
  else SendOutcome.resp (rangeResponse 0 1000000 1000001)

/-- An environment that always answers with the same accepted block. -/
def const_server (_i : Nat) (_req : HttpRequest) : SendOutcome :=
  SendOutcome.resp (rangeResponse 0 999999 2500000)

/-- An environment whose channel always fails with an I/O error. -/
def fail_server (_i : Nat) (_req : HttpRequest) : SendOutcome :=
  SendOutcome.fail (from_io "connection reset")

/-- An environment answering `206` without any `Content-Range` header. -/
def no_cr_server (_i : Nat) (_req : HttpRequest) : SendOutcome :=
  SendOutcome.resp ⟨206, "Partial Content", [], []⟩

/-- An environment answering `206` with a `Content-Range` value holding
fewer than three parseable integers. -/
def short_cr_server (_i : Nat) (_req : HttpRequest) : SendOutcome :=
  SendOutcome.resp ⟨206, "Partial Content", [(H_CONTENT_RANGE, "bytes */2500000")], []⟩

/-- An environment answering with a `404`. -/
def notfound_server (_i : Nat) (_req : HttpRequest) : SendOutcome :=
  SendOutcome.resp ⟨404, "Not Found", [], []⟩

/-- An environment answering `206` with the inverted span `bytes 5-2/10`. -/
def underflow_server (_i : Nat) (_req : HttpRequest) : SendOutcome :=
  SendOutcome.resp ⟨206, "Partial Content", [(H_CONTENT_RANGE, "bytes 5-2/10")], []⟩

/-- The probe response of a server announcing `Transfer-Encoding: CHUNKED`
(upper case) and no `Content-Length`. -/
def upper_chunked_response : HttpResponse :=
  ⟨200, "OK", [(H_TRANSFER_ENCODING, "CHUNKED")], []⟩

/-- The probe response of a server announcing `Transfer-Encoding: chunked`
(lower case) and no `Content-Length`. -/
def lower_chunked_response : HttpResponse :=
  ⟨200, "OK", [(H_TRANSFER_ENCODING, "chunked")], []⟩

/-! ### Helper lemmas -/

theorem eqIgnoreAsciiCase_self (s : String) : eqIgnoreAsciiCase s s = true := by
  simp [eqIgnoreAsciiCase]

theorem headerLookup_putHeader (hs : List (String × String)) (name value : String) :
    headerLookup (putHeader hs name value) name = some value := by
  induction hs with
  | nil => simp [putHeader, headerLookup, eqIgnoreAsciiCase_self]
  | cons kv rest ih =>
    obtain ⟨k, v⟩ := kv
    by_cases h : eqIgnoreAsciiCase k name = true
    · simp [putHeader, headerLookup, h]
    · simp [putHeader, headerLookup, h, ih]

/-- Characterization of an advancing `advance_window`: the two tokens are
ordered and the next state is exactly the advance of the source. -/
theorem advance_window_next_eq (size : Nat) (st : RangeWindow) (t0 t1 : Nat)
    (st' : RangeWindow) (hnext : advance_window size st t0 t1 = StepResult.next st') :
    t0 ≤ t1 ∧
      st' = ⟨t1 + 1, min size (st.end_byte + MAX_BLOCK_SIZE),
        st.total_read + (t1 - t0 + 1)⟩ := by
  unfold advance_window at hnext
  split at hnext
  · exact StepResult.noConfusion hnext
  · split at hnext
    · exact StepResult.noConfusion hnext
    · split at hnext
      · exact StepResult.noConfusion hnext
      · split at hnext
        · exact StepResult.noConfusion hnext
        · split at hnext
          · exact StepResult.noConfusion hnext
          · injection hnext with h
            exact ⟨Nat.le_of_not_lt (by assumption), h.symm⟩

/-- An advancing step exposes at least three parsed `Content-Range`
tokens. -/
theorem dlStep_next_tokens (size : Nat) (st : RangeWindow) (r : HttpResponse)
    (st' : RangeWindow) (hnext : dlStep size st r = StepResult.next st') :
    ∃ t0 t1 t2 rest, content_range_tokens r = t0 :: t1 :: t2 :: rest := by
  unfold dlStep at hnext
  split at hnext
  · exact StepResult.noConfusion hnext
  · split at hnext
    case h_1 v heq =>
      split at hnext
      · exact StepResult.noConfusion hnext
      · next hlen =>
        rcases h3 : parseContentRange v with _ | ⟨t0, _ | ⟨t1, _ | ⟨t2, rest⟩⟩⟩
        · rw [h3] at hlen; simp at hlen
        · rw [h3] at hlen; simp at hlen
        · rw [h3] at hlen; simp at hlen
        · exact ⟨t0, t1, t2, rest, by rw [content_range_tokens, heq]; exact h3⟩
    case h_2 heq => exact StepResult.noConfusion hnext

/-- Characterization of an advancing step in terms of the parsed
`Content-Range` tokens. -/
theorem dlStep_next_eq (size : Nat) (st : RangeWindow) (r : HttpResponse)
    (t0 t1 t2 : Nat) (rest : List Nat) (st' : RangeWindow)
    (htok : content_range_tokens r = t0 :: t1 :: t2 :: rest)
    (hnext : dlStep size st r = StepResult.next st') :
    t0 ≤ t1 ∧
      st' = ⟨t1 + 1, min size (st.end_byte + MAX_BLOCK_SIZE),
        st.total_read + (t1 - t0 + 1)⟩ := by
  unfold dlStep at hnext
  split at hnext
  · exact StepResult.noConfusion hnext
  · split at hnext
    case h_1 v heq =>
      have htv : parseContentRange v = t0 :: t1 :: t2 :: rest := by
        rw [content_range_tokens, heq] at htok; exact htok

      split at hnext
      · exact StepResult.noConfusion hnext
      · rw [htv] at hnext
        rw [show (t0 :: t1 :: t2 :: rest).getD 0 0 = t0 from rfl,
          show (t0 :: t1 :: t2 :: rest).getD 1 0 = t1 from rfl] at hnext
        exact advance_window_next_eq size st t0 t1 st' hnext
    case h_2 heq =>
      rw [content_range_tokens, heq] at htok
      exact List.noConfusion htok

/-- An advancing step gains at least one byte of `total_read`. -/
theorem dlStep_gain (size : Nat) (st : RangeWindow) (r : HttpResponse)
    (st' : RangeWindow) (hnext : dlStep size st r = StepResult.next st') :
    st.total_read + 1 ≤ st'.total_read := by
  obtain ⟨t0, t1, t2, rest, htok⟩ := dlStep_next_tokens size st r st' hnext
  obtain ⟨hle, hst⟩ := dlStep_next_eq size st r t0 t1 t2 rest st' htok hnext
  rw [hst]
  simp only []
  omega

/-- `advance_window` never produces a loop error. -/
theorem advance_window_not_err (size : Nat) (st : RangeWindow) (t0 t1 : Nat)
    (e : HttpError) : advance_window size st t0 t1 ≠ StepResult.err e := by
  intro h
  unfold advance_window at h
  split at h
  · exact StepResult.noConfusion h
  · split at h
    · exact StepResult.noConfusion h
    · split at h
      · exact StepResult.noConfusion h
      · split at h
        · exact StepResult.noConfusion h
        · split at h
          · exact StepResult.noConfusion h
          · exact StepResult.noConfusion h

/-- Unpack `accepted_response`. -/
theorem accepted_response_spec (r : HttpResponse)
    (h : accepted_response r = true) :
    (r.status_code = 206 ∨ r.status_code = 200) ∧
      ∃ t0 t1 t2 rest, content_range_tokens r = t0 :: t1 :: t2 :: rest ∧ t0 ≤ t1 := by
  unfold accepted_response at h
  rw [Bool.and_eq_true] at h
  obtain ⟨h1, h2⟩ := h
  constructor
  · rw [Bool.or_eq_true, beq_iff_eq, beq_iff_eq] at h1
    exact h1
  · rcases hc : content_range_tokens r with _ | ⟨t0, _ | ⟨t1, _ | ⟨t2, rest⟩⟩⟩ <;>
      rw [hc] at h2
    · simp at h2
    · simp at h2
    · simp at h2
    · exact ⟨t0, t1, t2, rest, rfl, of_decide_eq_true h2⟩

/-- A step on an accepted response never produces a loop error. -/
theorem dlStep_accepted_not_err (size : Nat) (st : RangeWindow)
    (r : HttpResponse) (hacc : accepted_response r = true) (e : HttpError) :
    dlStep size st r ≠ StepResult.err e := by
  obtain ⟨hstat, t0, t1, t2, rest, hc, _⟩ := accepted_response_spec r hacc
  intro h
  unfold dlStep at h
  split at h
  · next hbad =>
    obtain ⟨hb1, hb2⟩ := hbad
    cases hstat with
    | inl h' => exact hb1 h'
    | inr h' => exact hb2 h'
  · split at h
    case h_1 v heq =>
      have htv : parseContentRange v = t0 :: t1 :: t2 :: rest := by
        rw [content_range_tokens, heq] at hc; exact hc
      split at h
      · next hlen => rw [htv] at hlen; simp only [List.length_cons] at hlen; omega
      · exact advance_window_not_err size st _ _ e h
    case h_2 heq =>
      rw [content_range_tokens, heq] at hc
      exact List.noConfusion hc

/-- The loop exits as soon as `total_read >= size`. -/
theorem runLoop_exit (size : Nat) (server : Nat → HttpRequest → SendOutcome)
    (fuel i : Nat) (req : HttpRequest) (st : RangeWindow)
    (trace : List (RangeWindow × HttpRequest)) (h : size ≤ st.total_read) :
    runLoopAux size server fuel i req st trace = RunResult.ok st i trace := by
  cases fuel with
  | zero => simp only [runLoopAux]; rw [if_neg (Nat.not_lt.mpr h)]
  | succ fuel => simp only [runLoopAux]; rw [if_neg (Nat.not_lt.mpr h)]

/-- One unfolding of a continuing loop iteration. -/
theorem runLoop_cont (size : Nat) (server : Nat → HttpRequest → SendOutcome)
    (fuel i : Nat) (req : HttpRequest) (st : RangeWindow)
    (trace : List (RangeWindow × HttpRequest)) (h : st.total_read < size) :
    runLoopAux size server (fuel + 1) i req st trace =
      match server i (sent_request size st req) with
      | .fail e => .err e (i + 1) (trace ++ [(st, sent_request size st req)])
      | .resp r =>
        match dlStep size st r with
        | .next st' =>
          runLoopAux size server fuel (i + 1) (sent_request size st req) st'
            (trace ++ [(st, sent_request size st req)])
        | .err e => .err e (i + 1) (trace ++ [(st, sent_request size st req)])
        | .panicked => .panicked (i + 1) (trace ++ [(st, sent_request size st req)]) := by
  simp only [runLoopAux]
  rw [if_pos h]

/-- With fuel at least `size - total_read`, the loop never exhausts its
fuel (every advancing step gains at least one byte). -/
theorem runLoop_no_fuel_out (size : Nat) (server : Nat → HttpRequest → SendOutcome) :
    ∀ fuel i req st trace, size - st.total_read ≤ fuel →
      ∀ t, runLoopAux size server fuel i req st trace ≠ RunResult.outOfFuel t := by
  intro fuel
  induction fuel with
  | zero =>
    intro i req st trace hf t
    have hge : size ≤ st.total_read := by omega
    rw [runLoop_exit size server 0 i req st trace hge]
    simp
  | succ fuel ih =>
    intro i req st trace hf t
    by_cases hlt : st.total_read < size
    · cases hs : server i (sent_request size st req) with
      | fail e =>
        simp only [runLoop_cont size server fuel i req st trace hlt, hs]
        simp
      | resp r =>
        cases hd : dlStep size st r with
        | next st' =>
          have hgain := dlStep_gain size st r st' hd
          simp only [runLoop_cont size server fuel i req st trace hlt, hs, hd]
          exact ih (i + 1) (sent_request size st req) st'
            (trace ++ [(st, sent_request size st req)]) (by omega) t
        | err e =>
          simp only [runLoop_cont size server fuel i req st trace hlt, hs, hd]
          simp
        | panicked =>
          simp only [runLoop_cont size server fuel i req st trace hlt, hs, hd]
          simp
    · rw [runLoop_exit size server (fuel + 1) i req st trace (Nat.not_lt.mp hlt)]
      simp

/-- If every answer of the environment is an accepted response, the loop
never ends in an error. -/
theorem runLoop_no_err (size : Nat) (server : Nat → HttpRequest → SendOutcome)
    (hserver : server_accepts server) :
    ∀ fuel i req st trace e n t,
      runLoopAux size server fuel i req st trace ≠ RunResult.err e n t := by
  intro fuel
  induction fuel with
  | zero =>
    intro i req st trace e n t
    by_cases hlt : st.total_read < size
    · simp only [runLoopAux]
      rw [if_pos hlt]
      simp
    · rw [runLoop_exit size server 0 i req st trace (Nat.not_lt.mp hlt)]
      simp
  | succ fuel ih =>
    intro i req st trace e n t
    by_cases hlt : st.total_read < size
    · obtain ⟨r, hr, hacc⟩ := hserver i (sent_request size st req)
      cases hd : dlStep size st r with
      | next st' =>
        simp only [runLoop_cont size server fuel i req st trace hlt, hr, hd]
        exact ih (i + 1) (sent_request size st req) st'
          (trace ++ [(st, sent_request size st req)]) e n t
      | err e' => exact absurd hd (dlStep_accepted_not_err size st r hacc e')
      | panicked =>
        simp only [runLoop_cont size server fuel i req st trace hlt, hr, hd]
        simp
    · rw [runLoop_exit size server (fuel + 1) i req st trace (Nat.not_lt.mp hlt)]
      simp

/-- Every sub-request recorded in the loop's trace carries as its `Range`
header the window it was sent with. -/
theorem runLoop_trace_range (size : Nat) (server : Nat → HttpRequest → SendOutcome) :
    ∀ fuel i req st trace,
      (∀ p ∈ trace, headerLookup p.2.headers H_RANGE = some (range_value size p.1)) →
      ∀ p ∈ result_trace (runLoopAux size server fuel i req st trace),
        headerLookup p.2.headers H_RANGE = some (range_value size p.1) := by
  intro fuel
  induction fuel with
  | zero =>
    intro i req st trace hinv p hp
    by_cases hlt : st.total_read < size
    · simp only [runLoopAux] at hp
      rw [if_pos hlt] at hp
      exact hinv p hp
    · rw [runLoop_exit size server 0 i req st trace (Nat.not_lt.mp hlt)] at hp
      exact hinv p hp
  | succ fuel ih =>
    intro i req st trace hinv p hp
    have hstep : ∀ q ∈ trace ++ [(st, sent_request size st req)],
        headerLookup q.2.headers H_RANGE = some (range_value size q.1) := by
      intro q hq
      rcases List.mem_append.mp hq with hq | hq
      · exact hinv q hq
      · rcases List.mem_singleton.mp hq with rfl
        exact headerLookup_putHeader req.headers H_RANGE (range_value size st)
    by_cases hlt : st.total_read < size
    · cases hs : server i (sent_request size st req) with
      | fail e =>
        simp only [runLoop_cont size server fuel i req st trace hlt, hs, result_trace] at hp
        exact hstep p hp
      | resp r =>
        cases hd : dlStep size st r with
        | next st' =>
          simp only [runLoop_cont size server fuel i req st trace hlt, hs, hd] at hp
          exact ih (i + 1) (sent_request size st req) st'
            (trace ++ [(st, sent_request size st req)]) hstep p hp
        | err e =>
          simp only [runLoop_cont size server fuel i req st trace hlt, hs, hd,
            result_trace] at hp
          exact hstep p hp
        | panicked =>
          simp only [runLoop_cont size server fuel i req st trace hlt, hs, hd,
            result_trace] at hp
          exact hstep p hp
    · rw [runLoop_exit size server (fuel + 1) i req st trace (Nat.not_lt.mp hlt)] at hp
      exact hinv p hp

/-- A step on a response with accepted status but no `Content-Range`
header fails with the missing-header `BadResponse`. -/
theorem dlStep_missing_cr (size : Nat) (st : RangeWindow) (r : HttpResponse)
    (hstatus : r.status_code = 206 ∨ r.status_code = 200)
    (hcr : headerLookup r.headers H_CONTENT_RANGE = none) :
    dlStep size st r =
      StepResult.err (HttpError.BadResponse r.status_code
        ("Missing expected header: " ++ "`" ++ H_CONTENT_RANGE ++ "`")) := by
  have hok : ¬(r.status_code ≠ 206 ∧ r.status_code ≠ 200) := by
    rcases hstatus with h | h <;> simp [h]
  simp only [dlStep, hcr, if_neg hok]

/-- A step on a response with accepted status whose `Content-Range` value
parses to fewer than three integers fails with the unsupported-value
`BadResponse`. -/
theorem dlStep_unsupported_cr (size : Nat) (st : RangeWindow) (r : HttpResponse)
    (v : String) (hstatus : r.status_code = 206 ∨ r.status_code = 200)
    (hcr : headerLookup r.headers H_CONTENT_RANGE = some v)
    (hlen : (parseContentRange v).length < 3) :
    dlStep size st r =
      StepResult.err (HttpError.BadResponse r.status_code
        ("Unsupported value for header" ++ "`" ++
          displayHeader H_CONTENT_RANGE v ++ "`")) := by
  have hok : ¬(r.status_code ≠ 206 ∧ r.status_code ≠ 200) := by
    rcases hstatus with h | h <;> simp [h]
  simp only [dlStep, hcr, if_neg hok, if_pos hlen]

/-- A step on a response whose status is neither 200 nor 206 fails with a
`BadResponse` carrying that status and message. -/
theorem dlStep_bad_status (size : Nat) (st : RangeWindow) (r : HttpResponse)
    (h206 : r.status_code ≠ 206) (h200 : r.status_code ≠ 200) :
    dlStep size st r =
      StepResult.err (HttpError.BadResponse r.status_code r.status_msg) := by
  simp only [dlStep, if_pos (And.intro h206 h200)]

/-- A step on an accepted-status response whose `Content-Range` tokens
have their second entry below their first aborts with the underflow
panic. -/
theorem dlStep_underflow (size : Nat) (st : RangeWindow) (r : HttpResponse)
    (t0 t1 t2 : Nat) (rest : List Nat)
    (hstatus : r.status_code = 206 ∨ r.status_code = 200)
    (htok : content_range_tokens r = t0 :: t1 :: t2 :: rest)
    (hul : t1 < t0) :
    dlStep size st r = StepResult.panicked := by
  have hok : ¬(r.status_code ≠ 206 ∧ r.status_code ≠ 200) := by
    rcases hstatus with h | h <;> simp [h]
  cases hcr : headerLookup r.headers H_CONTENT_RANGE with
  | none =>
    rw [content_range_tokens, hcr] at htok
    exact List.noConfusion htok
  | some v =>
    have htv : parseContentRange v = t0 :: t1 :: t2 :: rest := by
      rw [content_range_tokens, hcr] at htok; exact htok
    simp only [dlStep, hcr, if_neg hok, htv]
    rw [if_neg (show ¬(t0 :: t1 :: t2 :: rest).length < 3 by
      simp only [List.length_cons]; omega)]
    rw [show (t0 :: t1 :: t2 :: rest).getD 0 0 = t0 from rfl,
      show (t0 :: t1 :: t2 :: rest).getD 1 0 = t1 from rfl]
    simp only [advance_window, if_pos hul]

/-! ### Claims -/

/-- Claim C1: in the segmented fetch of a `Sized(total)` resource with
`total > BLOCK_SIZE`, the loop state is initialized to `start_byte = 0`,
`end_byte = total`, `total_read = 0`; every `Range` header sent encodes
the current window as `bytes=<start>-<end>/<total>`; and after every
accepted response whose `Content-Range` parses to
`(range_start, range_end, reported_total)` the state advances exactly by
`total_read += range_end - range_start + 1`, `start = range_end + 1`,
`end = min(total, end + BLOCK_SIZE)`. -/
theorem C1_segmented_loop (size : Nat) (inner : HttpRequest)
    (server : Nat → HttpRequest → SendOutcome) (hsize : MAX_BLOCK_SIZE < size) :
    download_sized size inner server =
      runLoopAux size server size 0 inner ⟨0, size, 0⟩ [] ∧
    (∀ p ∈ result_trace (download_sized size inner server),
      headerLookup p.2.headers H_RANGE =
        some ("bytes=" ++ Nat.repr p.1.start_byte ++ "-" ++
          Nat.repr p.1.end_byte ++ "/" ++ Nat.repr size)) ∧
    (∀ st r st' t0 t1 t2 rest,
      content_range_tokens r = t0 :: t1 :: t2 :: rest →
      dlStep size st r = StepResult.next st' →
      st' = ⟨t1 + 1, min size (st.end_byte + MAX_BLOCK_SIZE),
        st.total_read + (t1 - t0 + 1)⟩) := by
  have hinit : download_sized size inner server =
      runLoopAux size server size 0 inner ⟨0, size, 0⟩ [] := by
    unfold download_sized
    rw [if_neg (Nat.not_le.mpr hsize)]
  refine ⟨hinit, ?_, ?_⟩
  · intro p hp
    rw [hinit] at hp
    exact runLoop_trace_range size server size 0 inner ⟨0, size, 0⟩ []
      (by intro q hq; exact absurd hq (List.not_mem_nil q)) p hp
  · intro st r st' t0 t1 t2 rest htok hnext
    exact (dlStep_next_eq size st r t0 t1 t2 rest st' htok hnext).2

/-- Claim C1 witness: a concrete advancing step of a 2,500,000-byte
download on the block-serving environment. -/
theorem C1_segmented_loop_witness :
    (⟨1000000, 2500000, 1000000⟩ : RangeWindow) =
      ⟨999999 + 1, min 2500000 ((2500000 : Nat) + MAX_BLOCK_SIZE),
        0 + (999999 - 0 + 1)⟩ :=
  (C1_segmented_loop 2500000 sampleRequest (block_server 2500000)
      (by decide)).2.2
    ⟨0, 2500000, 0⟩ (rangeResponse 0 999999 2500000)
    ⟨1000000, 2500000, 1000000⟩ 0 999999 2500000 []
    (by decide) (by decide)

/-- Claim C2 counterexample: the loop accepts a response reporting the
span `bytes 2000000-2000000/1000001`, after which the window at the
second iteration has `start_byte = 2000001 > end_byte = 1000001`, so
`start <= end` fails even though every response was accepted. -/
theorem C2_counterexample :
    ((result_trace (download_sized 1000001 sampleRequest overshoot_server)).map
        Prod.fst).get? 1 = some ⟨2000001, 1000001, 1⟩ ∧
    ¬((⟨2000001, 1000001, 1⟩ : RangeWindow).start_byte ≤
        (⟨2000001, 1000001, 1⟩ : RangeWindow).end_byte) := by
  constructor
  · decide
  · decide

/-- Claim C2 (amended): `end_byte` is constant (equal to `total`), hence
non-decreasing and never above `total`; and provided every accepted
response reports a span with `current start <= range_start` and
`range_end < total`, the invariant `start <= end <= total` is preserved
and `start_byte` is non-decreasing across iterations. -/
theorem C2_amended (size : Nat) :
    loop_invariant size ⟨0, size, 0⟩ ∧
    ∀ st r st' t0 t1 t2 rest,
      loop_invariant size st →
      dlStep size st r = StepResult.next st' →
      content_range_tokens r = t0 :: t1 :: t2 :: rest →
      st.start_byte ≤ t0 → t1 < size →
      loop_invariant size st' ∧ st.start_byte ≤ st'.start_byte ∧
        st.end_byte ≤ st'.end_byte ∧ st'.end_byte ≤ size := by
  constructor
  · exact ⟨rfl, Nat.zero_le size⟩
  · intro st r st' t0 t1 t2 rest hinv hnext htok ha hb
    obtain ⟨hle, hst⟩ := dlStep_next_eq size st r t0 t1 t2 rest st' htok hnext
    obtain ⟨hend, hse⟩ := hinv
    rw [hst]
    refine ⟨⟨?_, ?_⟩, ?_, ?_, ?_⟩ <;> simp only [loop_invariant] <;> omega

/-- Claim C2 witness: a concrete invariant-preserving step. -/
theorem C2_amended_witness :
    loop_invariant 1000001 (⟨1000000, 1000001, 1000000⟩ : RangeWindow) ∧
      (⟨0, 1000001, 0⟩ : RangeWindow).start_byte ≤
        (⟨1000000, 1000001, 1000000⟩ : RangeWindow).start_byte ∧
      (⟨0, 1000001, 0⟩ : RangeWindow).end_byte ≤
        (⟨1000000, 1000001, 1000000⟩ : RangeWindow).end_byte ∧
      (⟨1000000, 1000001, 1000000⟩ : RangeWindow).end_byte ≤ 1000001 :=
  (C2_amended 1000001).2 ⟨0, 1000001, 0⟩ (rangeResponse 0 999999 1000001)
    ⟨1000000, 1000001, 1000000⟩ 0 999999 1000001 []
    (by constructor <;> decide) (by decide) (by decide) (by decide) (by decide)

/-- Claim C3: for a 2,500,000-byte resource on a server capping each
answer at `BLOCK_SIZE = 1,000,000` bytes, the segmented download issues
exactly 3 sub-requests after the size probe, and the byte counts
accumulated from the three accepted `Content-Range` spans sum to exactly
2,500,000. -/
theorem C3_three_blocks :
    result_requests (download_sized 2500000 sampleRequest (block_server 2500000)) =
      some 3 ∧
    result_total_read (download_sized 2500000 sampleRequest (block_server 2500000)) =
      some 2500000 := by
  constructor
  · decide
  · decide

/-- Claim C4: for `total > BLOCK_SIZE`, when every response in the loop
is accepted, every advancing iteration increases `total_read` by at least
1, the loop (run with fuel `total`) never exhausts its fuel and never
ends in an error, and it exits as soon as `total_read >= total`. -/
theorem C4_termination (size : Nat) (inner : HttpRequest)
    (server : Nat → HttpRequest → SendOutcome)
    (hsize : MAX_BLOCK_SIZE < size) (hserver : server_accepts server) :
    (∀ st r st', dlStep size st r = StepResult.next st' →
      st.total_read + 1 ≤ st'.total_read) ∧
    (∀ t, download_sized size inner server ≠ RunResult.outOfFuel t) ∧
    (∀ e n t, download_sized size inner server ≠ RunResult.err e n t) ∧
    (∀ fuel i req st trace, size ≤ st.total_read →
      runLoopAux size server fuel i req st trace = RunResult.ok st i trace) := by
  have hbranch : download_sized size inner server =
      runLoopAux size server size 0 inner ⟨0, size, 0⟩ [] := by
    unfold download_sized
    rw [if_neg (Nat.not_le.mpr hsize)]
  refine ⟨?_, ?_, ?_, ?_⟩
  · intro st r st' h
    exact dlStep_gain size st r st' h
  · intro t
    rw [hbranch]
    exact runLoop_no_fuel_out size server size 0 inner ⟨0, size, 0⟩ [] (by omega) t
  · intro e n t
    rw [hbranch]
    exact runLoop_no_err size server hserver size 0 inner ⟨0, size, 0⟩ [] e n t
  · intro fuel i req st trace h
    exact runLoop_exit size server fuel i req st trace h

/-- Claim C4 witness: on the constant accepted-block environment the loop
exits immediately once `total_read` reaches the total. -/
theorem C4_termination_witness :
    runLoopAux 2500000 const_server 5 0 sampleRequest ⟨0, 2500000, 2500000⟩ [] =
      RunResult.ok ⟨0, 2500000, 2500000⟩ 0 [] :=
  (C4_termination 2500000 sampleRequest const_server (by decide)
      (fun _ _ => ⟨rangeResponse 0 999999 2500000, rfl, by decide⟩)).2.2.2
    5 0 sampleRequest ⟨0, 2500000, 2500000⟩ [] (by decide)

/-- Claim C5 counterexample: the error enum of `src/error.rs` has no
`IoError` variant; an I/O failure on an established channel converts (via
the wire-protocol library's error type) to `ParseError`, and a failing
sub-request surfaces exactly that `ParseError` — not a distinct
`IoError`. -/
theorem C5_counterexample :
    from_io "connection reset" = HttpError.ParseError "connection reset" ∧
    download_sized 1000001 sampleRequest fail_server =
      RunResult.err (HttpError.ParseError "connection reset") 1
        [(⟨0, 1000001, 0⟩, sent_request 1000001 ⟨0, 1000001, 0⟩ sampleRequest)] := by
  constructor
  · rfl
  · decide

/-- Claim C5 (amended): read/write failures on an established channel are
propagated to the caller as `ParseError` (there is no `IoError` kind),
and `ParseError` is distinct from `ConnectionError` and from
`BadResponse`; a failing sub-request aborts the loop with exactly that
error. -/
theorem C5_amended (msg : String) :
    from_io msg = HttpError.ParseError msg ∧
    (∀ s, from_io msg ≠ HttpError.ConnectionError s) ∧
    (∀ n s, from_io msg ≠ HttpError.BadResponse n s) ∧
    (∀ size fuel i req st trace server,
      st.total_read < size →
      server i (sent_request size st req) = SendOutcome.fail (from_io msg) →
      runLoopAux size server (fuel + 1) i req st trace =
        RunResult.err (HttpError.ParseError msg) (i + 1)
          (trace ++ [(st, sent_request size st req)])) := by
  refine ⟨rfl, ?_, ?_, ?_⟩
  · intro s h
    exact HttpError.noConfusion h
  · intro n s h
    exact HttpError.noConfusion h
  · intro size fuel i req st trace server hlt hs
    simp only [runLoop_cont size server fuel i req st trace hlt, hs]
    rfl

/-- Claim C5 witness: a concrete failing sub-request surfacing
`ParseError`. -/
theorem C5_amended_witness :
    runLoopAux 1000001 fail_server 1 0 sampleRequest ⟨0, 1000001, 0⟩ [] =
      RunResult.err (HttpError.ParseError "connection reset") 1
        [(⟨0, 1000001, 0⟩, sent_request 1000001 ⟨0, 1000001, 0⟩ sampleRequest)] :=
  (C5_amended "connection reset").2.2.2 1000001 0 0 sampleRequest
    ⟨0, 1000001, 0⟩ [] fail_server (by decide) rfl

/-- Claim C6 counterexample: a probe response with no `Content-Length`
and `Transfer-Encoding: CHUNKED` is NOT classified `Chunked` — the
`contains("chunk")` test of `request_size` is case-sensitive — and the
probe instead fails with `BadResponse`. -/
theorem C6_counterexample :
    request_size_classify upper_chunked_response ≠ Except.ok FileSize.Chunked ∧
    request_size_classify upper_chunked_response =
      Except.error (HttpError.BadResponse 200
        "OK: Cannot determine resource size from headers.") := by
  constructor
  · decide
  · decide

/-- Claim C6 (amended): during size probing, if the 200 response has no
`Content-Length` and the `Transfer-Encoding` value contains the substring
`"chunk"` under CASE-SENSITIVE comparison, the classification is
`Chunked`; case variants such as `"CHUNKED"` or `"Chunked"` do not match
and yield `BadResponse`. -/
theorem C6_amended (r : HttpResponse) (v : String)
    (hstatus : r.status_code = 200)
    (hcl : headerLookup r.headers H_CONTENT_LENGTH = none)
    (hte : headerLookup r.headers H_TRANSFER_ENCODING = some v)
    (hchunk : containsSub v.data "chunk".data = true) :
    request_size_classify r = Except.ok FileSize.Chunked := by
  simp [request_size_classify, hstatus, hcl, hte, hchunk]

/-- Claim C6 witness: a lower-case `chunked` probe response is classified
`Chunked`. -/
theorem C6_amended_witness :
    request_size_classify lower_chunked_response = Except.ok FileSize.Chunked :=
  C6_amended lower_chunked_response "chunked" rfl (by decide) (by decide) (by decide)

/-- Claim C7: during a segmented fetch, an accepted-status response with
no `Content-Range` header aborts the whole operation with a `BadResponse`
naming the missing header, and a present value parsing to fewer than
three integers aborts with a `BadResponse` describing the unsupported
value; both errors carry the response's status code. -/
theorem C7_content_range_validation (size : Nat)
    (server : Nat → HttpRequest → SendOutcome) (fuel i : Nat)
    (req : HttpRequest) (st : RangeWindow)
    (trace : List (RangeWindow × HttpRequest)) (r : HttpResponse)
    (hlt : st.total_read < size)
    (hs : server i (sent_request size st req) = SendOutcome.resp r)
    (hstatus : r.status_code = 206 ∨ r.status_code = 200) :
    (headerLookup r.headers H_CONTENT_RANGE = none →
      runLoopAux size server (fuel + 1) i req st trace =
        RunResult.err (HttpError.BadResponse r.status_code
            ("Missing expected header: " ++ "`" ++ H_CONTENT_RANGE ++ "`"))
          (i + 1) (trace ++ [(st, sent_request size st req)])) ∧
    (∀ v, headerLookup r.headers H_CONTENT_RANGE = some v →
      (parseContentRange v).length < 3 →
      runLoopAux size server (fuel + 1) i req st trace =
        RunResult.err (HttpError.BadResponse r.status_code
            ("Unsupported value for header" ++ "`" ++
              displayHeader H_CONTENT_RANGE v ++ "`"))
          (i + 1) (trace ++ [(st, sent_request size st req)])) := by
  constructor
  · intro hcr
    simp only [runLoop_cont size server fuel i req st trace hlt, hs,
      dlStep_missing_cr size st r hstatus hcr]
  · intro v hcr hlen
    simp only [runLoop_cont size server fuel i req st trace hlt, hs,
      dlStep_unsupported_cr size st r v hstatus hcr hlen]

/-- Claim C7 witness: a concrete 206 response without `Content-Range`
aborts the download with the missing-header `BadResponse`. -/
theorem C7_content_range_validation_witness :
    runLoopAux 1000001 no_cr_server 1 0 sampleRequest ⟨0, 1000001, 0⟩ [] =
      RunResult.err (HttpError.BadResponse 206
          ("Missing expected header: " ++ "`" ++ H_CONTENT_RANGE ++ "`")) 1
        [(⟨0, 1000001, 0⟩, sent_request 1000001 ⟨0, 1000001, 0⟩ sampleRequest)] :=
  (C7_content_range_validation 1000001 no_cr_server 0 0 sampleRequest
      ⟨0, 1000001, 0⟩ [] ⟨206, "Partial Content", [], []⟩
      (by decide) rfl (Or.inl rfl)).1 rfl

/-- Claim C8: any response whose status is neither 200 nor 206 terminates
the download with a `BadResponse` carrying exactly that status and status
message, after exactly `i + 1` issued sub-requests (no further
sub-request is issued). -/
theorem C8_bad_status_aborts (size : Nat)
    (server : Nat → HttpRequest → SendOutcome) (fuel i : Nat)
    (req : HttpRequest) (st : RangeWindow)
    (trace : List (RangeWindow × HttpRequest)) (r : HttpResponse)
    (hlt : st.total_read < size)
    (hs : server i (sent_request size st req) = SendOutcome.resp r)
    (h206 : r.status_code ≠ 206) (h200 : r.status_code ≠ 200) :
    runLoopAux size server (fuel + 1) i req st trace =
      RunResult.err (HttpError.BadResponse r.status_code r.status_msg) (i + 1)
        (trace ++ [(st, sent_request size st req)]) := by
  simp only [runLoop_cont size server fuel i req st trace hlt, hs,
    dlStep_bad_status size st r h206 h200]

/-- Claim C8 witness: a 404 during a segmented fetch aborts with
`BadResponse 404 "Not Found"` after one sub-request. -/
theorem C8_bad_status_aborts_witness :
    runLoopAux 1000001 notfound_server 1 0 sampleRequest ⟨0, 1000001, 0⟩ [] =
      RunResult.err (HttpError.BadResponse 404 "Not Found") 1
        [(⟨0, 1000001, 0⟩, sent_request 1000001 ⟨0, 1000001, 0⟩ sampleRequest)] :=
  C8_bad_status_aborts 1000001 notfound_server 0 0 sampleRequest
    ⟨0, 1000001, 0⟩ [] ⟨404, "Not Found", [], []⟩
    (by decide) rfl (by decide) (by decide)

/-- Claim C9: an accepted response (status 200 or 206) whose
`Content-Range` parses to three integers with the second strictly below
the first (e.g. `bytes 5-2/10`) makes `download_sized` panic on unsigned
underflow in `tokens[1] - tokens[0] + 1` instead of returning any
`HttpError`. -/
theorem C9_underflow (size : Nat)
    (server : Nat → HttpRequest → SendOutcome) (fuel i : Nat)
    (req : HttpRequest) (st : RangeWindow)
    (trace : List (RangeWindow × HttpRequest)) (r : HttpResponse)
    (t0 t1 t2 : Nat) (rest : List Nat)
    (hlt : st.total_read < size)
    (hs : server i (sent_request size st req) = SendOutcome.resp r)
    (hstatus : r.status_code = 206 ∨ r.status_code = 200)
    (htok : content_range_tokens r = t0 :: t1 :: t2 :: rest)
    (hul : t1 < t0) :
    runLoopAux size server (fuel + 1) i req st trace =
      RunResult.panicked (i + 1) (trace ++ [(st, sent_request size st req)]) ∧
    ∀ e n t, runLoopAux size server (fuel + 1) i req st trace ≠
      RunResult.err e n t := by
  have hpan : runLoopAux size server (fuel + 1) i req st trace =
      RunResult.panicked (i + 1) (trace ++ [(st, sent_request size st req)]) := by
    simp only [runLoop_cont size server fuel i req st trace hlt, hs,
      dlStep_underflow size st r t0 t1 t2 rest hstatus htok hul]
  refine ⟨hpan, ?_⟩
  intro e n t h
  rw [hpan] at h
  exact RunResult.noConfusion h

/-- Claim C9 witness: the concrete response `bytes 5-2/10` with status
206 ends the run in the panic outcome after one sub-request. -/
theorem C9_underflow_witness :
    runLoopAux 1000001 underflow_server 1 0 sampleRequest ⟨0, 1000001, 0⟩ [] =
      RunResult.panicked 1
        [(⟨0, 1000001, 0⟩, sent_request 1000001 ⟨0, 1000001, 0⟩ sampleRequest)] :=
  (C9_underflow 1000001 underflow_server 0 0 sampleRequest ⟨0, 1000001, 0⟩ []
      ⟨206, "Partial Content", [(H_CONTENT_RANGE, "bytes 5-2/10")], []⟩
      5 2 10 [] (by decide) rfl (Or.inl rfl) (by decide) (by decide)).1

/-- Claim C10: for every parsed URL, `Client::patch` and `Client::options`
construct a `ClientRequest` whose HTTP method is `Trace` — not `Patch`
and not `Options`. -/
theorem C10_patch_options_use_trace (url : HttpUrl) :
    (Client.patch url).inner.method = HttpMethod.Trace ∧
    (Client.options url).inner.method = HttpMethod.Trace ∧
    HttpMethod.Trace ≠ HttpMethod.Patch ∧
    HttpMethod.Trace ≠ HttpMethod.Options := by
  exact ⟨rfl, rfl, by decide, by decide⟩

/-- Claim C10 witness: a concrete `patch` request carries the `Trace`
method. -/
theorem C10_patch_options_use_trace_witness :
    (Client.patch ⟨"https", "example.com", 443, "/file"⟩).inner.method =
      HttpMethod.Trace :=
  (C10_patch_options_use_trace ⟨"https", "example.com", 443, "/file"⟩).1

end HttpClient
